import Mathlib

/-!
Verification of the scoring core of the WasteManagement dashboard
(`src/Wastemanagement.py`): the deadline calculator `days_to_deadline`,
the what-if simulator `simulate`, and the MCDA scorer `mcda_score`.

Numbers are modelled as exact rationals; Python's built-in `round`
(banker's rounding, half to even) is modelled by `pyRound`; Python
exceptions (`ValueError` from `strptime`/`date`, `KeyError` from dict
lookup) are modelled by `Option`. Digits in date strings are modelled as
the ASCII digits `0`-`9`.
-/

namespace WasteManagement

/-- Python's built-in `round` on an exact rational: round half to even. -/
def pyRound (q : ℚ) : ℤ :=
  let n := Int.floor q
  let frac := q - n
  if frac < 1/2 then n
  else if 1/2 < frac then n + 1
  else if n % 2 = 0 then n else n + 1

/-- The dict returned by `simulate` (lines 142-147 of the source). -/
structure SimulationResult where
  complianceScore : ℚ
  costDeltaPct : ℤ
  availabilityRisk : ℚ
  eprGapReduction : ℤ
  deriving DecidableEq

/-- Source function `simulate` (src/Wastemanagement.py lines 124-147),
translated operation for operation over exact rationals. -/
def simulate (material_from material_to : String) (recycled_pct lead_time_days : ℚ)
    (traceability : Bool) (base_cost_per_unit : ℚ := 10) : SimulationResult :=
  let compliance_target : ℚ := 20
  let material_boost : ℚ := if material_from = "PVC" ∧ material_to = "PET" then 12 else 4
  let compliance_score := min 100 (60 + material_boost + max 0 (recycled_pct - compliance_target))
  let material_cost_factor : ℚ := if material_to = "PET" then 1.08 else 1.0
  let traceability_cost : ℚ := if traceability then 0.02 else 0
  let new_cost := base_cost_per_unit * material_cost_factor * (1 + traceability_cost)
  let cost_delta_pct := pyRound (((new_cost - base_cost_per_unit) / base_cost_per_unit) * 100)
  let base_risk : ℚ := 20
  let lead_risk := max 0 ((lead_time_days - 10) * 2)
  let recycled_risk := max 0 ((recycled_pct - compliance_target) * 0.8)
  let availability_risk := min 95 (base_risk + lead_risk + recycled_risk)
  let epr_gap_reduction := pyRound ((recycled_pct - compliance_target) * 5)
  { complianceScore := compliance_score
    costDeltaPct := cost_delta_pct
    availabilityRisk := availability_risk
    eprGapReduction := epr_gap_reduction }

/-- The metrics dict passed to `mcda_score`; per the source it must carry
the five fixed criteria, which are read once each (lines 151-157). -/
structure Metrics where
  compliance : ℚ
  cost : ℚ
  availability : ℚ
  recyclability : ℚ
  traceability : ℚ
  deriving DecidableEq

/-- The `normalized` dict built inside `mcda_score` (lines 151-157):
a lookup on its five string keys; any other key is a `KeyError` (`none`). -/
def normalized (m : Metrics) (k : String) : Option ℚ :=
  if k = "compliance" then some m.compliance
  else if k = "cost" then some (100 - m.cost)
  else if k = "availability" then some m.availability
  else if k = "recyclability" then some m.recyclability
  else if k = "traceability" then some m.traceability
  else none

/-- The five criterion names, the key set of `normalized`. -/
def criteriaKeys : List String :=
  ["compliance", "cost", "availability", "recyclability", "traceability"]

/-- The terms `normalized[k] * weights[k]` summed inside `mcda_score`,
one per entry of the weights dict (modelled as an association list). -/
def mcda_terms (m : Metrics) (weights : List (String × ℚ)) : List ℚ :=
  weights.map (fun kw => (normalized m kw.1).getD 0 * kw.2)

/-- Source function `mcda_score` (src/Wastemanagement.py lines 149-158):
`round(sum(normalized[k] * weights[k] for k in weights))`. A weights key
outside the five criteria raises `KeyError` (`none`); otherwise the rounded
weighted sum over the keys present in `weights` is returned. -/
def mcda_score (m : Metrics) (weights : List (String × ℚ)) : Option ℤ :=
  if ∀ kw ∈ weights, (normalized m kw.1).isSome then
    some (pyRound (mcda_terms m weights).sum)
  else none

/-- ASCII digit test, the `\d` of the compiled `%Y-%m-%d` pattern. -/
def isDigit09 (c : Char) : Prop := 48 ≤ c.toNat ∧ c.toNat ≤ 57

instance (c : Char) : Decidable (isDigit09 c) := by
  unfold isDigit09; infer_instance

/-- Numeric value of an ASCII digit character. -/
def digitVal (c : Char) : ℕ := c.toNat - 48

/-- The month field of `strptime('%Y-%m-%d')`, i.e. the regex alternation
`1[0-2]|0[1-9]|[1-9]` applied at the current position: a valid two-digit
month is consumed whole, else a single digit `1`-`9` is consumed. -/
def parseMonth : List Char → Option (ℕ × List Char)
  | c1 :: c2 :: rest =>
    if isDigit09 c1 ∧ isDigit09 c2 then
      if (digitVal c1 = 1 ∧ digitVal c2 ≤ 2) ∨ (digitVal c1 = 0 ∧ 1 ≤ digitVal c2) then
        some (10 * digitVal c1 + digitVal c2, rest)
      else if 1 ≤ digitVal c1 then some (digitVal c1, c2 :: rest)
      else none
    else if isDigit09 c1 ∧ 1 ≤ digitVal c1 then some (digitVal c1, c2 :: rest)
    else none
  | [c1] =>
    if isDigit09 c1 ∧ 1 ≤ digitVal c1 then some (digitVal c1, []) else none
  | [] => none

/-- The day field of `strptime('%Y-%m-%d')`, i.e. the regex alternation
`3[01]|[12]\d|0[1-9]|[1-9]` applied at the current position. -/
def parseDay : List Char → Option (ℕ × List Char)
  | c1 :: c2 :: rest =>
    if isDigit09 c1 ∧ isDigit09 c2 then
      if (digitVal c1 = 3 ∧ digitVal c2 ≤ 1) ∨ digitVal c1 = 1 ∨ digitVal c1 = 2
          ∨ (digitVal c1 = 0 ∧ 1 ≤ digitVal c2) then
        some (10 * digitVal c1 + digitVal c2, rest)
      else if 1 ≤ digitVal c1 then some (digitVal c1, c2 :: rest)
      else none
    else if isDigit09 c1 ∧ 1 ≤ digitVal c1 then some (digitVal c1, c2 :: rest)
    else none
  | [c1] =>
    if isDigit09 c1 ∧ 1 ≤ digitVal c1 then some (digitVal c1, []) else none
  | [] => none

/-- Field extraction of `strptime(s, '%Y-%m-%d')`: a four-digit year, a literal
dash, the month field, a literal dash, the day field, end of input (the
whole string must be consumed, else `ValueError`). -/
def strptime_Ymd : List Char → Option (ℕ × ℕ × ℕ)
  | y1 :: y2 :: y3 :: y4 :: '-' :: rest =>
    if isDigit09 y1 ∧ isDigit09 y2 ∧ isDigit09 y3 ∧ isDigit09 y4 then
      match parseMonth rest with
      | some (m, '-' :: rest2) =>
        match parseDay rest2 with
        | some (d, []) =>
          some (1000 * digitVal y1 + 100 * digitVal y2 + 10 * digitVal y3 + digitVal y4, m, d)
        | _ => none
      | _ => none
    else none
  | _ => none

/-- Gregorian leap-year test, as in Python's `calendar`/`datetime`. -/
def isLeapYear (y : ℕ) : Bool := (y % 4 == 0 && y % 100 != 0) || y % 400 == 0

/-- Days in a month of the proleptic Gregorian calendar. -/
def daysInMonth (y m : ℕ) : ℕ :=
  if m = 2 then (if isLeapYear y then 29 else 28)
  else if m = 4 ∨ m = 6 ∨ m = 9 ∨ m = 11 then 30
  else 31

/-- A `datetime.date`: the `(year, month, day)` triple, as produced by the
validated constructor. -/
structure Date where
  year : ℕ
  month : ℕ
  day : ℕ
  deriving DecidableEq

/-- Days before January 1 of year `y`, as in `datetime._days_before_year`. -/
def daysBeforeYear (y : ℕ) : ℕ :=
  (y - 1) * 365 + (y - 1) / 4 - (y - 1) / 100 + (y - 1) / 400

/-- Days in year `y` strictly before month `m`. -/
def daysBeforeMonth (y m : ℕ) : ℕ :=
  ((List.range (m - 1)).map (fun i => daysInMonth y (i + 1))).sum

/-- Python `date.toordinal()`: January 1 of year 1 is ordinal 1. -/
def toordinal (d : Date) : ℕ :=
  daysBeforeYear d.year + daysBeforeMonth d.year d.month + d.day

/-- The composite `datetime.strptime(s, '%Y-%m-%d').date()`: field extraction followed by
the `date` constructor's range validation (`ValueError` is `none`). -/
def strToDate (s : String) : Option Date :=
  match strptime_Ymd s.data with
  | some (y, m, d) =>
    if 1 ≤ y ∧ y ≤ 9999 ∧ 1 ≤ m ∧ m ≤ 12 ∧ 1 ≤ d ∧ d ≤ daysInMonth y m then
      some { year := y, month := m, day := d }
    else none
  | none => none

/-- Source function `days_to_deadline` (src/Wastemanagement.py lines
116-120), with the implicit `date.today()` made an explicit argument:
`max(0, (deadline - today).days)`, and a `ValueError` from parsing
modelled as `none`. -/
def days_to_deadline (deadline_str : String) (today : Date) : Option ℤ :=
  match strToDate deadline_str with
  | some deadline => some (max 0 ((toordinal deadline : ℤ) - (toordinal today : ℤ)))
  | none => none

/-- Modelled from the spec: a string in strict ISO `YYYY-MM-DD` form
(four-digit year, zero-padded two-digit month and day) denoting a valid
proleptic Gregorian calendar date. The spec names this form but the
repository only calls `strptime('%Y-%m-%d')`; this predicate follows the
spec's words, for comparison with `strToDate`. -/
def isStrictISODate (s : String) : Bool :=
  match s.data with
  | [a, b, c, d, s1, e, f, s2, g, h] =>
    decide (s1 = '-' ∧ s2 = '-' ∧
      isDigit09 a ∧ isDigit09 b ∧ isDigit09 c ∧ isDigit09 d ∧
      isDigit09 e ∧ isDigit09 f ∧ isDigit09 g ∧ isDigit09 h ∧
      (let y := 1000 * digitVal a + 100 * digitVal b + 10 * digitVal c + digitVal d
       let mo := 10 * digitVal e + digitVal f
       let dy := 10 * digitVal g + digitVal h
       1 ≤ y ∧ 1 ≤ mo ∧ mo ≤ 12 ∧ 1 ≤ dy ∧ dy ≤ daysInMonth y mo))
  | _ => false

end WasteManagement

namespace WasteManagement

/-! ### Helper lemmas -/

theorem pyRound_down (q : ℚ) (z : ℤ) (h1 : (z:ℚ) ≤ q) (h2 : q < z + 1/2) : pyRound q = z := by
  have hf : Int.floor q = z := by
    rw [Int.floor_eq_iff]
    refine ⟨h1, ?_⟩
    linarith
  simp only [pyRound, hf]
  rw [if_pos]
  linarith

theorem pyRound_up (q : ℚ) (z : ℤ) (h1 : (z:ℚ) + 1/2 < q) (h2 : q ≤ z + 1) :
    pyRound q = z + 1 := by
  rcases eq_or_lt_of_le h2 with heq | hlt
  · have hf : Int.floor q = z + 1 := by
      rw [heq, show ((z:ℚ) + 1) = ((z + 1 : ℤ) : ℚ) by push_cast; ring]
      exact Int.floor_intCast (α := ℚ) (z + 1)
    simp only [pyRound, hf]
    rw [if_pos]
    rw [heq]
    push_cast
    linarith
  · have hf : Int.floor q = z := by
      rw [Int.floor_eq_iff]
      refine ⟨by linarith, by linarith⟩
    simp only [pyRound, hf]
    rw [if_neg, if_pos]
    · linarith
    · linarith

theorem normalized_compliance (m : Metrics) : normalized m "compliance" = some m.compliance := rfl

theorem normalized_cost (m : Metrics) : normalized m "cost" = some (100 - m.cost) := rfl

theorem normalized_availability (m : Metrics) :
    normalized m "availability" = some m.availability := rfl

theorem normalized_recyclability (m : Metrics) :
    normalized m "recyclability" = some m.recyclability := rfl

theorem normalized_traceability (m : Metrics) :
    normalized m "traceability" = some m.traceability := rfl

theorem normalized_isSome {m : Metrics} {k : String} (hk : k ∈ criteriaKeys) :
    (normalized m k).isSome = true := by
  simp only [criteriaKeys, List.mem_cons, List.mem_singleton] at hk
  rcases hk with h|h|h|h|h|h <;> first
    | (rw [h, normalized_compliance]; rfl)
    | (rw [h, normalized_cost]; rfl)
    | (rw [h, normalized_availability]; rfl)
    | (rw [h, normalized_recyclability]; rfl)
    | (rw [h, normalized_traceability]; rfl)
    | exact absurd h (by simp)

theorem normalized_eq_none {m : Metrics} {k : String} (hk : k ∉ criteriaKeys) :
    normalized m k = none := by
  simp only [criteriaKeys, List.mem_cons, List.mem_singleton, not_or] at hk
  obtain ⟨h1, h2, h3, h4, h5, _⟩ := hk
  simp [normalized, h1, h2, h3, h4, h5]

end WasteManagement

namespace WasteManagement

/-! ### Claim theorems: the what-if simulator -/

/-- C1: `simulate('PVC','PET',20,10,false)` (base cost defaulted to 10)
returns complianceScore 72, costDeltaPct 8, availabilityRisk 20,
eprGapReduction 0; and `simulate('PP','PP',30,20,true)` returns
complianceScore 74, costDeltaPct 2, availabilityRisk 48,
eprGapReduction 50. -/
theorem simulate_examples :
    simulate "PVC" "PET" 20 10 false = ⟨72, 8, 20, 0⟩
    ∧ simulate "PP" "PP" 30 20 true = ⟨74, 2, 48, 50⟩ := by
  constructor
  · simp only [simulate]
    norm_num [min_def, max_def]
    exact ⟨pyRound_down 8 8 (by norm_num) (by norm_num),
      pyRound_down 0 0 (by norm_num) (by norm_num)⟩
  · simp only [simulate]
    norm_num [min_def, max_def,
      show ¬(("PP":String) = "PVC" ∧ ("PP":String) = "PET") from by decide,
      show ("PP":String) ≠ "PET" from by decide]
    exact ⟨pyRound_down 2 2 (by norm_num) (by norm_num),
      pyRound_down 50 50 (by norm_num) (by norm_num)⟩

/-- C3 counterexample: at `simulate('PVC','PET',21,10,false)` the returned
availabilityRisk is 20.8, which is not an integer, refuting the claim that
the availabilityRisk field is always an integer in 0..95. -/
theorem availabilityRisk_not_integer :
    ¬ ∃ z : ℤ, (simulate "PVC" "PET" 21 10 false).availabilityRisk = (z : ℚ) := by
  have h : (simulate "PVC" "PET" 21 10 false).availabilityRisk = 104/5 := by
    simp only [simulate]
    norm_num [min_def, max_def]
  rw [h]
  rintro ⟨z, hz⟩
  have h5 : (104 : ℚ) = 5 * z := by
    field_simp at hz
    linarith
  have h5' : (104 : ℤ) = 5 * z := by exact_mod_cast h5
  omega

/-- C3 (amended): for every input to `simulate`, the returned
availabilityRisk is a rational number lying in the range 0 to 95 inclusive
(not necessarily an integer, since the recycled-content term scales by
0.8). -/
theorem availabilityRisk_range (mf mt : String) (rp lt : ℚ) (tr : Bool) (bc : ℚ) :
    0 ≤ (simulate mf mt rp lt tr bc).availabilityRisk
    ∧ (simulate mf mt rp lt tr bc).availabilityRisk ≤ 95 := by
  simp only [simulate]
  constructor
  · refine le_min (by norm_num) ?_
    have h1 := le_max_left (0:ℚ) ((lt - 10) * 2)
    have h2 := le_max_left (0:ℚ) ((rp - 20) * 0.8)
    linarith
  · exact min_le_left _ _

/-- C4: for fixed materials, lead time, traceability and base cost, the
complianceScore returned by `simulate` is monotonically non-decreasing in
recycledPct, and it never exceeds 100. -/
theorem complianceScore_monotone (mf mt : String) (lt : ℚ) (tr : Bool) (bc : ℚ) (r1 r2 : ℚ) :
    (r1 ≤ r2 →
      (simulate mf mt r1 lt tr bc).complianceScore ≤ (simulate mf mt r2 lt tr bc).complianceScore)
    ∧ (simulate mf mt r1 lt tr bc).complianceScore ≤ 100 := by
  simp only [simulate]
  constructor
  · intro h
    gcongr
  · exact min_le_left _ _

/-- C4 witness: at recycledPct 20 ≤ 30 with materials PVC→PET the score is
monotone. -/
theorem complianceScore_monotone_witness :
    (simulate "PVC" "PET" 20 10 false).complianceScore
      ≤ (simulate "PVC" "PET" 30 10 false).complianceScore :=
  (complianceScore_monotone "PVC" "PET" 10 false 10 20 30).1 (by norm_num)

/-- C5: for every input to `simulate`, however large leadTimeDays or
recycledPct are, the returned availabilityRisk is at most 95. -/
theorem availabilityRisk_le_95 (mf mt : String) (rp lt : ℚ) (tr : Bool) (bc : ℚ) :
    (simulate mf mt rp lt tr bc).availabilityRisk ≤ 95 := by
  simp only [simulate]
  exact min_le_left _ _

/-- C10: for every input to `simulate`, the returned complianceScore lies
in the range 64 to 100 inclusive: the baseline 60 plus the minimum material
boost 4 is a floor, and the recycled-content term is clamped at 0 from
below. -/
theorem complianceScore_range (mf mt : String) (rp lt : ℚ) (tr : Bool) (bc : ℚ) :
    64 ≤ (simulate mf mt rp lt tr bc).complianceScore
    ∧ (simulate mf mt rp lt tr bc).complianceScore ≤ 100 := by
  simp only [simulate]
  refine ⟨le_min (by norm_num) ?_, min_le_left _ _⟩
  have hb : (4:ℚ) ≤ (if mf = "PVC" ∧ mt = "PET" then (12:ℚ) else 4) := by
    split_ifs <;> norm_num
  have hm := le_max_left (0:ℚ) (rp - 20)
  linarith

end WasteManagement

namespace WasteManagement

/-! ### Claim theorems: the MCDA scorer -/

/-- C2: for every weights bundle containing exactly the five criteria and
summing to 1, `mcda_score` on the metrics {compliance 100, cost 0,
availability 100, recyclability 100, traceability 100} returns exactly 100
(cost is inverted to 100 before the weighted sum). -/
theorem mcda_score_perfect (w : List (String × ℚ)) (hk : List.Perm (w.map Prod.fst) criteriaKeys)
    (hs : (w.map Prod.snd).sum = 1) :
    mcda_score ⟨100, 0, 100, 100, 100⟩ w = some 100 := by
  have hmem : ∀ kw ∈ w, kw.1 ∈ criteriaKeys := fun kw hkw =>
    hk.mem_iff.mp (List.mem_map_of_mem Prod.fst hkw)
  have hnorm : ∀ kw ∈ w, normalized ⟨100, 0, 100, 100, 100⟩ kw.1 = some 100 := by
    intro kw hkw
    have hcases := hmem kw hkw
    simp only [criteriaKeys, List.mem_cons, List.mem_singleton] at hcases
    rcases hcases with h|h|h|h|h|h
    · rw [h, normalized_compliance]
    · rw [h, normalized_cost]; norm_num
    · rw [h, normalized_availability]
    · rw [h, normalized_recyclability]
    · rw [h, normalized_traceability]
    · exact absurd h (by simp)
  rw [mcda_score, if_pos]
  · congr 1
    have hterms : mcda_terms ⟨100, 0, 100, 100, 100⟩ w = w.map (fun kw => 100 * kw.2) := by
      apply List.map_congr_left
      intro kw hkw
      rw [hnorm kw hkw]
      rfl
    rw [hterms, List.sum_map_mul_left, show (w.map fun kw => kw.2) = w.map Prod.snd from rfl,
      hs]
    norm_num
    exact pyRound_down 100 100 (by norm_num) (by norm_num)
  · intro kw hkw
    rw [hnorm kw hkw]
    rfl

/-- C2 witness: the dashboard's own weights bundle, which sums to 1. -/
theorem mcda_score_perfect_witness :
    mcda_score ⟨100, 0, 100, 100, 100⟩
      [("compliance", 3/10), ("cost", 1/5), ("availability", 3/20),
       ("recyclability", 1/5), ("traceability", 3/20)] = some 100 := by
  apply mcda_score_perfect
  · rw [show (List.map Prod.fst
        [(("compliance":String), (3:ℚ)/10), ("cost", 1/5), ("availability", 3/20),
         ("recyclability", 1/5), ("traceability", 3/20)]) = criteriaKeys from rfl]
  · simp only [List.map_cons, List.map_nil, List.sum_cons, List.sum_nil]
    norm_num

end WasteManagement

namespace WasteManagement

/-- C6 counterexample: with metrics {compliance 1, cost 100, availability 0,
recyclability 0, traceability 0}, doubling the compliance weight from 3/10
to 3/5 moves the returned score from 0 to 1, a change of 1, while the
normalized compliance value times the weight delta is 1 * (3/5 - 3/10) =
3/10; the rounding applied to the returned score breaks exact linearity. -/
theorem mcda_score_not_weight_linear :
    mcda_score ⟨1, 100, 0, 0, 0⟩
      [("compliance", 3/5), ("cost", 1/5), ("availability", 3/20),
       ("recyclability", 1/5), ("traceability", 3/20)] = some 1
    ∧ mcda_score ⟨1, 100, 0, 0, 0⟩
      [("compliance", 3/10), ("cost", 1/5), ("availability", 3/20),
       ("recyclability", 1/5), ("traceability", 3/20)] = some 0
    ∧ ((1:ℚ) - 0) ≠ ((normalized ⟨1, 100, 0, 0, 0⟩ "compliance").getD 0) * (3/5 - 3/10) := by
  refine ⟨?_, ?_, ?_⟩
  · rw [mcda_score, if_pos]
    · have hsum : (mcda_terms ⟨1, 100, 0, 0, 0⟩
          [("compliance", 3/5), ("cost", 1/5), ("availability", 3/20),
           ("recyclability", 1/5), ("traceability", 3/20)]).sum = 3/5 := by
        simp only [mcda_terms, List.map_cons, List.map_nil, List.sum_cons, List.sum_nil,
          normalized_compliance, normalized_cost, normalized_availability,
          normalized_recyclability, normalized_traceability, Option.getD_some]
        norm_num
      rw [hsum]
      norm_num
      exact pyRound_up (3/5) 0 (by norm_num) (by norm_num)
    · intro kw hkw
      fin_cases hkw <;> rfl
  · rw [mcda_score, if_pos]
    · have hsum : (mcda_terms ⟨1, 100, 0, 0, 0⟩
          [("compliance", 3/10), ("cost", 1/5), ("availability", 3/20),
           ("recyclability", 1/5), ("traceability", 3/20)]).sum = 3/10 := by
        simp only [mcda_terms, List.map_cons, List.map_nil, List.sum_cons, List.sum_nil,
          normalized_compliance, normalized_cost, normalized_availability,
          normalized_recyclability, normalized_traceability, Option.getD_some]
        norm_num
      rw [hsum]
      congr 1
      exact pyRound_down (3/10) 0 (by norm_num) (by norm_num)
    · intro kw hkw
      fin_cases hkw <;> rfl
  · rw [normalized_compliance]
    norm_num

/-- C6 (amended): the weighted sum computed inside `mcda_score`, before
rounding, is linear in each weight holding the metrics fixed: doubling one
criterion's weight while leaving the others unchanged changes that sum by
exactly the criterion's normalized value (cost inverted as 100 - cost,
others unchanged) times the weight delta. -/
theorem mcda_terms_weight_linear (m : Metrics) (pre post : List (String × ℚ)) (k : String)
    (v nv : ℚ) (hnv : normalized m k = some nv) :
    (mcda_terms m (pre ++ (k, 2 * v) :: post)).sum
      - (mcda_terms m (pre ++ (k, v) :: post)).sum = nv * (2 * v - v) := by
  simp only [mcda_terms, List.map_append, List.map_cons, List.sum_append, List.sum_cons, hnv,
    Option.getD_some]
  ring

/-- C6 witness: doubling the compliance weight 1/4 changes the pre-rounding
sum by its normalized value 1 times the delta. -/
theorem mcda_terms_weight_linear_witness :
    (mcda_terms ⟨1, 0, 0, 0, 0⟩ ([("cost", 1/2)] ++ ("compliance", 2 * (1/4)) :: [])).sum
      - (mcda_terms ⟨1, 0, 0, 0, 0⟩ ([("cost", 1/2)] ++ ("compliance", 1/4) :: [])).sum
      = 1 * (2 * (1/4) - 1/4) :=
  mcda_terms_weight_linear ⟨1, 0, 0, 0, 0⟩ [("cost", 1/2)] [] "compliance" (1/4) 1
    (normalized_compliance _)

end WasteManagement

namespace WasteManagement

/-- C9: `mcda_score` sums over exactly the keys present in the weights
dict: when every weights key is among the five criteria it succeeds (a
missing criterion simply contributes 0, so appending zero-weight criteria
leaves the score unchanged), whereas any weights key outside the five
criteria raises a key-lookup error (`none`). -/
theorem mcda_score_key_behavior (m : Metrics) (w : List (String × ℚ)) :
    ((∀ kw ∈ w, kw.1 ∈ criteriaKeys) →
      (mcda_score m w).isSome = true
      ∧ ∀ ks : List String, (∀ k ∈ ks, k ∈ criteriaKeys) →
          mcda_score m (w ++ ks.map (fun k => (k, (0:ℚ)))) = mcda_score m w)
    ∧ ((∃ kw ∈ w, kw.1 ∉ criteriaKeys) → mcda_score m w = none) := by
  constructor
  · intro hw
    have hg : ∀ kw ∈ w, (normalized m kw.1).isSome = true := fun kw hkw =>
      normalized_isSome (hw kw hkw)
    constructor
    · rw [mcda_score, if_pos hg]
      rfl
    · intro ks hks
      have hg2 : ∀ kw ∈ w ++ ks.map (fun k => (k, (0:ℚ))), (normalized m kw.1).isSome = true := by
        intro kw hkw
        rcases List.mem_append.mp hkw with h | h
        · exact hg kw h
        · obtain ⟨k, hk, rfl⟩ := List.mem_map.mp h
          exact normalized_isSome (hks k hk)
      rw [mcda_score, if_pos hg2, mcda_score, if_pos hg]
      have hz : (mcda_terms m (ks.map (fun k => (k, (0:ℚ))))).sum = 0 := by
        apply List.sum_eq_zero
        intro x hx
        simp only [mcda_terms, List.map_map, List.mem_map, Function.comp] at hx
        obtain ⟨k, hk, hkx⟩ := hx
        rw [← hkx]
        exact mul_zero _
      have happ : mcda_terms m (w ++ ks.map (fun k => (k, (0:ℚ))))
          = mcda_terms m w ++ mcda_terms m (ks.map (fun k => (k, (0:ℚ)))) := by
        simp [mcda_terms]
      rw [happ, List.sum_append, hz, add_zero]
  · rintro ⟨kw, hkw, hnot⟩
    rw [mcda_score, if_neg]
    intro hall
    have hsome := hall kw hkw
    rw [normalized_eq_none hnot] at hsome
    simp at hsome

/-- C9 witness: a weights dict holding only `compliance` succeeds, padding
it with zero-weight criteria changes nothing, and an unknown key fails. -/
theorem mcda_score_key_behavior_witness :
    (mcda_score ⟨1, 2, 3, 4, 5⟩ [("compliance", 1/2)]).isSome = true
    ∧ mcda_score ⟨1, 2, 3, 4, 5⟩
        ([("compliance", 1/2)] ++ ["cost", "availability"].map (fun k => (k, (0:ℚ))))
      = mcda_score ⟨1, 2, 3, 4, 5⟩ [("compliance", 1/2)]
    ∧ mcda_score ⟨1, 2, 3, 4, 5⟩ [("compliance", 1/2), ("extra", 1/2)] = none := by
  have h1 := (mcda_score_key_behavior ⟨1, 2, 3, 4, 5⟩ [("compliance", 1/2)]).1
    (by intro kw hkw; fin_cases hkw; simp [criteriaKeys])
  refine ⟨h1.1, h1.2 ["cost", "availability"] ?_, ?_⟩
  · intro k hk
    fin_cases hk <;> simp [criteriaKeys]
  · exact (mcda_score_key_behavior ⟨1, 2, 3, 4, 5⟩ [("compliance", 1/2), ("extra", 1/2)]).2
      ⟨("extra", 1/2), by simp, by simp [criteriaKeys]⟩

end WasteManagement

namespace WasteManagement

/-! ### Claim theorems: the deadline calculator -/

/-- C7: with `today` an explicit input, for every parseable deadline
strictly before today `days_to_deadline` returns exactly 0; for every
parseable deadline exactly D days in the future it returns exactly D; and
the result is never negative. -/
theorem days_to_deadline_days_remaining (s : String) (today dl : Date)
    (h : strToDate s = some dl) :
    (toordinal dl < toordinal today → days_to_deadline s today = some 0)
    ∧ (∀ D : ℕ, toordinal dl = toordinal today + D → days_to_deadline s today = some (D : ℤ))
    ∧ (∀ r : ℤ, days_to_deadline s today = some r → 0 ≤ r) := by
  simp only [days_to_deadline, h]
  refine ⟨?_, ?_, ?_⟩
  · intro hlt
    simp only [Option.some.injEq]
    omega
  · intro D hD
    simp only [Option.some.injEq]
    omega
  · intro r hr
    simp only [Option.some.injEq] at hr
    omega

/-- C7 witness: 2026-05-04 is 3 days after 2026-05-01 and strictly before
2026-07-01. -/
theorem days_to_deadline_days_remaining_witness :
    strToDate "2026-05-04" = some ⟨2026, 5, 4⟩
    ∧ days_to_deadline "2026-05-04" ⟨2026, 5, 1⟩ = some 3
    ∧ days_to_deadline "2026-05-04" ⟨2026, 7, 1⟩ = some 0 :=
  ⟨by decide,
   (days_to_deadline_days_remaining "2026-05-04" ⟨2026, 5, 1⟩ ⟨2026, 5, 4⟩ (by decide)).2.1
     3 (by decide),
   (days_to_deadline_days_remaining "2026-05-04" ⟨2026, 7, 1⟩ ⟨2026, 5, 4⟩ (by decide)).1
     (by decide)⟩

end WasteManagement

namespace WasteManagement

theorem digitVal_le_9 {c : Char} (h : isDigit09 c) : digitVal c ≤ 9 := by
  obtain ⟨h1, h2⟩ := h
  unfold digitVal
  omega

theorem daysInMonth_le_31 (y m : ℕ) : daysInMonth y m ≤ 31 := by
  unfold daysInMonth
  split_ifs <;> norm_num

theorem parseMonth_two (c1 c2 : Char) (rest : List Char)
    (h1 : isDigit09 c1) (h2 : isDigit09 c2)
    (hlo : 1 ≤ 10 * digitVal c1 + digitVal c2) (hhi : 10 * digitVal c1 + digitVal c2 ≤ 12) :
    parseMonth (c1 :: c2 :: rest) = some (10 * digitVal c1 + digitVal c2, rest) := by
  have hv2 := digitVal_le_9 h2
  simp only [parseMonth]
  rw [if_pos ⟨h1, h2⟩, if_pos (by omega)]

theorem parseDay_two (c1 c2 : Char) (rest : List Char)
    (h1 : isDigit09 c1) (h2 : isDigit09 c2)
    (hlo : 1 ≤ 10 * digitVal c1 + digitVal c2) (hhi : 10 * digitVal c1 + digitVal c2 ≤ 31) :
    parseDay (c1 :: c2 :: rest) = some (10 * digitVal c1 + digitVal c2, rest) := by
  have hv2 := digitVal_le_9 h2
  simp only [parseDay]
  rw [if_pos ⟨h1, h2⟩, if_pos (by omega)]

/-- Every string in strict ISO `YYYY-MM-DD` form denoting a valid calendar
date is accepted by the `%Y-%m-%d` parser. -/
theorem strToDate_of_strictISO (s : String) (hiso : isStrictISODate s = true) :
    (strToDate s).isSome = true := by
  rcases hsd : s.data with _ | ⟨a, _ | ⟨b, _ | ⟨c, _ | ⟨d, _ | ⟨s1, _ | ⟨e, _ | ⟨f,
    _ | ⟨s2, _ | ⟨g, _ | ⟨h, _ | ⟨x, rest⟩⟩⟩⟩⟩⟩⟩⟩⟩⟩⟩ <;>
      rw [isStrictISODate.eq_def, hsd] at hiso <;> simp at hiso
  obtain ⟨hs1, hs2, ha, hb, hc, hd, he, hf, hg, hh, hy1, hm1, hm2, hd1, hd2⟩ := hiso
  subst hs1
  subst hs2
  have hy9 : 1000 * digitVal a + 100 * digitVal b + 10 * digitVal c + digitVal d ≤ 9999 := by
    have := digitVal_le_9 ha
    have := digitVal_le_9 hb
    have := digitVal_le_9 hc
    have := digitVal_le_9 hd
    omega
  have hdim : 10 * digitVal g + digitVal h ≤ 31 :=
    le_trans hd2 (daysInMonth_le_31 _ _)
  rw [strToDate, hsd]
  simp only [strptime_Ymd]
  rw [if_pos ⟨ha, hb, hc, hd⟩, parseMonth_two e f _ he hf hm1 hm2]
  simp only
  rw [parseDay_two g h _ hg hh hd1 hdim]
  simp only
  rw [if_pos ⟨hy1, hy9, hm1, hm2, hd1, hd2⟩]
  rfl

end WasteManagement

namespace WasteManagement

/-- C8 counterexample: the string "2026-3-4" cannot be read as a calendar
date in strict ISO `YYYY-MM-DD` form (month and day are not zero-padded),
yet `days_to_deadline` does not fail on it: the `%Y-%m-%d` parser accepts
unpadded month and day fields, and a day count is returned. -/
theorem strptime_accepts_unpadded :
    isStrictISODate "2026-3-4" = false
    ∧ days_to_deadline "2026-3-4" ⟨2026, 3, 1⟩ = some 3 := by
  constructor
  · decide
  · decide

/-- C8 (amended): `days_to_deadline` fails (with the parse `ValueError`
modelled as `none`), rather than returning a day count, exactly on the
strings the `%Y-%m-%d` parser cannot interpret as a calendar date; the
parser also accepts unpadded month and day fields, so every string in
strict ISO `YYYY-MM-DD` form denoting a valid calendar date is accepted. -/
theorem days_to_deadline_parse_behavior (s : String) (today : Date) :
    (days_to_deadline s today = none ↔ strToDate s = none)
    ∧ (isStrictISODate s = true → (strToDate s).isSome = true) := by
  constructor
  · cases h : strToDate s <;> simp [days_to_deadline, h]
  · exact strToDate_of_strictISO s

/-- C8 witness: the strict ISO string "2026-03-04" parses. -/
theorem days_to_deadline_parse_behavior_witness :
    (strToDate "2026-03-04").isSome = true :=
  (days_to_deadline_parse_behavior "2026-03-04" ⟨2026, 1, 1⟩).2 (by decide)

end WasteManagement
